import Mathlib

/-!
Shallow embedding of the ESP32 smart-home monitor sketch
(`smart_home_esp32_thingspeak.ino`).

Conventions of the embedding:
* `float` arithmetic of the sketch is idealised as exact real arithmetic (`ℝ`);
  `sqrtf` becomes `Real.sqrt`, `fabsf` becomes `|·|`.
* 32-bit unsigned millisecond counters (`unsigned long` on the ESP32) are
  modelled as natural numbers reduced modulo `ULONG_MOD = 2^32` exactly where the
  C code can overflow (`millis() + SHAKE_HOLD_MS`, unsigned subtraction).
* C `int`/`long` values are modelled as `ℤ` (all uses stay far below 2^31, so
  no wrapping is needed); C integer division truncates toward zero, which is
  `Int.tdiv`.
* I2C bus reads are modelled by passing the number of available bytes and the
  byte list as explicit inputs; the mutated globals become explicit state
  records.
-/

/-- `THINGSPEAK_SEND_INTERVAL_MS` from the sketch. -/
def THINGSPEAK_SEND_INTERVAL_MS : ℕ := 5000

/-- `OLED_PAGE_INTERVAL_MS` from the sketch. -/
def OLED_PAGE_INTERVAL_MS : ℕ := 3000

/-- `SHAKE_HOLD_MS` from the sketch. -/
def SHAKE_HOLD_MS : ℕ := 300

/-- Modulus of the 32-bit `unsigned long` millisecond counters. -/
def ULONG_MOD : ℕ := 4294967296

/-- `MIN_QUAKE_COUNTS` from the sketch (threshold floor, in accel counts). -/
def MIN_QUAKE_COUNTS : ℕ := 70

/-- `ACC_EMA_ALPHA` from the sketch. -/
noncomputable def ACC_EMA_ALPHA : ℝ := 0.10

/-- `MAG_ALPHA` from the sketch. -/
noncomputable def MAG_ALPHA : ℝ := 0.02

/-- `DYN_ALPHA` from the sketch. -/
noncomputable def DYN_ALPHA : ℝ := 0.25

/-- `NOISE_ALPHA` from the sketch. -/
noncomputable def NOISE_ALPHA : ℝ := 0.01

/-- `NOISE_MULT` from the sketch. -/
noncomputable def NOISE_MULT : ℝ := 5.0

/-- The mutable globals of the motion anomaly detector:
`accInitialized`, `axE`, `ayE`, `azE`, `magE`, `dynE`, `noiseE`,
`shakeUntilMs`. -/
structure MotionState where
  accInitialized : Bool
  axE : ℝ
  ayE : ℝ
  azE : ℝ
  magE : ℝ
  dynE : ℝ
  noiseE : ℝ
  shakeUntilMs : ℕ

/-- The initial values of the detector globals
(`accInitialized = false`, all accumulators 0, `shakeUntilMs = 0`). -/
def initialMotionState : MotionState :=
  { accInitialized := false, axE := 0, ayE := 0, azE := 0,
    magE := 0, dynE := 0, noiseE := 0, shakeUntilMs := 0 }

/-- `isShakeActive()` from the sketch: `millis() < shakeUntilMs`
(an absolute comparison of timestamps). -/
def isShakeActive (now : ℕ) (s : MotionState) : Bool :=
  now < s.shakeUntilMs

/-- `sqrtf((float)ax*ax + (float)ay*ay + (float)az*az)`: Euclidean norm of a
raw acceleration triple. -/
noncomputable def magnitude (ax ay az : ℤ) : ℝ :=
  Real.sqrt ((ax : ℝ) ^ 2 + (ay : ℝ) ^ 2 + (az : ℝ) ^ 2)

/-- `updateMotion()` from the sketch, with the raw sample `(ax, ay, az)`
(read by `readMPU6050Raw`) and the current `millis()` value passed
explicitly.  Returns the sketch's `hasMPU`-guarded update of the detector
globals; `shakeUntilMs` is assigned `millis() + SHAKE_HOLD_MS` in 32-bit
unsigned arithmetic. -/
noncomputable def updateMotion (hasMPU : Bool) (ax ay az : ℤ) (now : ℕ)
    (s : MotionState) : MotionState :=
  if hasMPU = false then s
  else if s.accInitialized = false then
    { accInitialized := true, axE := (ax : ℝ), ayE := (ay : ℝ), azE := (az : ℝ),
      magE := magnitude ax ay az, dynE := 0, noiseE := 0,
      shakeUntilMs := s.shakeUntilMs }
  else
    let axE' := (1 - ACC_EMA_ALPHA) * s.axE + ACC_EMA_ALPHA * (ax : ℝ)
    let ayE' := (1 - ACC_EMA_ALPHA) * s.ayE + ACC_EMA_ALPHA * (ay : ℝ)
    let azE' := (1 - ACC_EMA_ALPHA) * s.azE + ACC_EMA_ALPHA * (az : ℝ)
    let mag := magnitude ax ay az
    let magE' := (1 - MAG_ALPHA) * s.magE + MAG_ALPHA * mag
    let dyn := |mag - magE'|
    let dynE' := (1 - DYN_ALPHA) * s.dynE + DYN_ALPHA * dyn
    let noiseE' := if isShakeActive now s then s.noiseE
                   else (1 - NOISE_ALPHA) * s.noiseE + NOISE_ALPHA * dynE'
    let th := max (noiseE' * NOISE_MULT) ((MIN_QUAKE_COUNTS : ℕ) : ℝ)
    let shakeUntil' := if th < dynE' then (now + SHAKE_HOLD_MS) % ULONG_MOD
                       else s.shakeUntilMs
    { accInitialized := true, axE := axE', ayE := ayE', azE := azE',
      magE := magE', dynE := dynE', noiseE := noiseE',
      shakeUntilMs := shakeUntil' }

/-- Iterated detector updates: one `updateMotion` call per loop iteration,
fed the same constant raw sample at the successive `millis()` values in
`times`. -/
noncomputable def runMotion (ax ay az : ℤ) (times : List ℕ) (s : MotionState) :
    MotionState :=
  times.foldl (fun st t => updateMotion true ax ay az t st) s

/-- Arduino `constrain` macro on `int`:
`(amt < low) ? low : ((amt > high) ? high : amt)`. -/
def constrain (amt low high : ℤ) : ℤ :=
  if amt < low then low else if high < amt then high else amt

/-- Arduino `constrain` macro, at the `ℕ`-valued uses of the sketch. -/
def constrainN (amt low high : ℕ) : ℕ :=
  if amt < low then low else if high < amt then high else amt

/-- `MQ_SPAN` from the sketch. -/
def MQ_SPAN : ℕ := 250

/-- `MQ_FLOOR_PCT` from the sketch. -/
def MQ_FLOOR_PCT : ℤ := 1

/-- `calcAirPct()` from the sketch, with the calibration globals `mqBase`
and `mqDirty` passed explicitly.  C integer division of the nonnegative
`long` expression is `Int.tdiv`. -/
def calcAirPct (mqBase mqDirty raw : ℤ) : ℤ :=
  if mqDirty ≤ mqBase then MQ_FLOOR_PCT
  else
    let r := constrain raw mqBase mqDirty
    let pct := Int.tdiv ((r - mqBase) * 100) (mqDirty - mqBase)
    let ip := constrain pct 0 100
    if ip = 0 then MQ_FLOOR_PCT else ip

/-- `calibrateMQBaseline()` from the sketch, with the 220 `analogRead`
results passed as a list.  Returns the pair `(mqBase, mqDirty)`:
`mqBase = sum / 220` and `mqDirty = constrain(mqBase + MQ_SPAN, mqBase + 1,
1023)`. -/
def calibrateMQBaseline (samples : List ℕ) : ℕ × ℕ :=
  let mqBase := samples.sum / 220
  (mqBase, constrainN (mqBase + MQ_SPAN) (mqBase + 1) 1023)

/-- 32-bit unsigned subtraction `a - b` of two `unsigned long` values
`a, b < ULONG_MOD`, as computed by the loop's `now - lastPageMs` and
`now - lastSendMs`. -/
def usub32 (a b : ℕ) : ℕ :=
  (a + ULONG_MOD - b) % ULONG_MOD

/-- The loop's display page rotation check:
`now - lastPageMs >= OLED_PAGE_INTERVAL_MS`. -/
def pageDue (now lastPageMs : ℕ) : Bool :=
  OLED_PAGE_INTERVAL_MS ≤ usub32 now lastPageMs

/-- The loop's report cadence check:
`now - lastSendMs >= THINGSPEAK_SEND_INTERVAL_MS`. -/
def sendDue (now lastSendMs : ℕ) : Bool :=
  THINGSPEAK_SEND_INTERVAL_MS ≤ usub32 now lastSendMs

/-- Modelled from the spec: the wraparound-safe, difference-based reading of
the shake active window that the spec asserts for all elapsed-time checks —
"elapsed milliseconds since the qualifying sample (computed by unsigned
subtraction) is below the hold duration".  Used only to compare the code's
`isShakeActive` against the spec's description. -/
def shakeActiveDiffBased (triggerMs t : ℕ) : Bool :=
  usub32 t triggerMs < SHAKE_HOLD_MS

/-- `clampf()` from the sketch (on exact rationals). -/
def clampf (v lo hi : ℚ) : ℚ :=
  if v < lo then lo else if hi < v then hi else v

/-- The globals written by `readAHT10()`: `tempC` and `humP`. -/
structure AHTState where
  tempC : ℚ
  humP : ℚ

/-- `readAHT10()` from the sketch, with the bus response passed explicitly:
`avail` is the `Wire.available()` byte count after `Wire.requestFrom`, and
`data` the response bytes.  Returns the state unchanged when the byte count
is not 6 or when the status byte has the busy bit `0x80` set; otherwise
decodes the 20-bit raw humidity and temperature and stores the clamped
conversions. -/
def readAHT10 (avail : ℕ) (data : List ℕ) (s : AHTState) : AHTState :=
  if avail ≠ 6 then s
  else if (data.getD 0 0).land 128 ≠ 0 then s
  else
    let h_raw := ((data.getD 1 0) <<< 12) ||| ((data.getD 2 0) <<< 4) |||
      ((data.getD 3 0) >>> 4)
    let t_raw := (((data.getD 3 0).land 15) <<< 16) |||
      ((data.getD 4 0) <<< 8) ||| (data.getD 5 0)
    { humP := clampf ((h_raw : ℚ) * 100 / 1048576) 0 100,
      tempC := clampf ((t_raw : ℚ) * 200 / 1048576 - 50) (-40) 85 }

/-- `((int16_t)hi << 8) | lo`: reassemble a big-endian signed 16-bit value
from two bus bytes. -/
def as16 (hi lo : ℕ) : ℤ :=
  let v := (hi % 256) * 256 + lo % 256
  if v < 32768 then (v : ℤ) else (v : ℤ) - 65536

/-- The globals written by `readMPU6050Raw()`: `ax`, `ay`, `az`. -/
structure MPUState where
  ax : ℤ
  ay : ℤ
  az : ℤ

/-- `readMPU6050Raw()` from the sketch, with the bus response passed
explicitly.  Returns the state unchanged when fewer than 6 bytes are
available; otherwise stores the three reassembled axis words. -/
def readMPU6050Raw (avail : ℕ) (data : List ℕ) (s : MPUState) : MPUState :=
  if avail < 6 then s
  else
    { ax := as16 (data.getD 0 0) (data.getD 1 0),
      ay := as16 (data.getD 2 0) (data.getD 3 0),
      az := as16 (data.getD 4 0) (data.getD 5 0) }

/-- `p.beginsWith l`: the pattern `p` is an initial run of `l`
(charwise `==` comparison). -/
def beginsWith : List Char → List Char → Bool
  | [], _ => true
  | _ :: _, [] => false
  | a :: p, b :: l => a == b && beginsWith p l

/-- `substrOccurs p l`: the pattern `p` occurs contiguously somewhere in
`l` — the reading of "the URL contains the field". -/
def substrOccurs (p : List Char) : List Char → Bool
  | [] => p.isEmpty
  | c :: rest => beginsWith p (c :: rest) || substrOccurs p rest

/-- `THINGSPEAK_URL` from the sketch. -/
def THINGSPEAK_URL : List Char := "http://api.thingspeak.com/update".toList

/-- `THINGSPEAK_API_KEY` from the sketch. -/
def THINGSPEAK_API_KEY : List Char := "YOUR_THINGSPEAK_WRITE_API".toList

/-- The `"&field1="` literal appended by `sendToThingSpeak()`. -/
def field1Tag : List Char := "&field1=".toList

/-- The `"&field2="` literal appended by `sendToThingSpeak()`. -/
def field2Tag : List Char := "&field2=".toList

/-- The `"&field3="` literal appended by `sendToThingSpeak()`. -/
def field3Tag : List Char := "&field3=".toList

/-- The `"&field4="` literal appended by `sendToThingSpeak()`. -/
def field4Tag : List Char := "&field4=".toList

/-- The `"&field5="` literal appended by `sendToThingSpeak()`. -/
def field5Tag : List Char := "&field5=".toList

/-- The URL string built by `sendToThingSpeak()`: base URL, API key, the
two AHT10 fields only under `hasAHT`, then air percentage, shake flag and
raw gas reading.  The formatted numeric payloads (`String(tempC, 1)`,
`String(humP, 1)`, `String(airPct)`, `String(shake)`, `String(mqRaw)`) are
passed as character lists. -/
def sendToThingSpeakUrl (hasAHT : Bool) (tempS humS airS shakeS mqS : List Char) :
    List Char :=
  THINGSPEAK_URL ++ "?api_key=".toList ++ THINGSPEAK_API_KEY ++
    (if hasAHT then field1Tag ++ tempS ++ field2Tag ++ humS else []) ++
    field3Tag ++ airS ++ field4Tag ++ shakeS ++ field5Tag ++ mqS

/-! ## Helper lemmas -/

/-- The Arduino `constrain` macro lands in `[low, high]` whenever
`low ≤ high`. -/
theorem constrain_mem (amt low high : ℤ) (h : low ≤ high) :
    low ≤ constrain amt low high ∧ constrain amt low high ≤ high := by
  unfold constrain; split_ifs <;> omega

/-! ## Claims about the gas percentage mapping -/

/-- Claim C4: for every raw gas reading `raw : ℤ` and every baseline
`(mqBase, mqDirty)` within `[0, 1023]`, `calcAirPct` returns a value in
`[1, 100]`, never exactly 0, and a reading equal to the floor maps to the
fixed minimum percentage 1. -/
theorem calcAirPct_range (mqBase mqDirty raw : ℤ)
    (_hb0 : 0 ≤ mqBase) (_hb1 : mqBase ≤ 1023)
    (_hc0 : 0 ≤ mqDirty) (_hc1 : mqDirty ≤ 1023) :
    1 ≤ calcAirPct mqBase mqDirty raw ∧ calcAirPct mqBase mqDirty raw ≤ 100 ∧
    calcAirPct mqBase mqDirty raw ≠ 0 ∧ calcAirPct mqBase mqDirty mqBase = 1 := by
  have hb : ∀ r : ℤ, 1 ≤ calcAirPct mqBase mqDirty r ∧
      calcAirPct mqBase mqDirty r ≤ 100 := by
    intro r
    simp only [calcAirPct, constrain, MQ_FLOOR_PCT]
    split_ifs <;> omega
  have hfloor : calcAirPct mqBase mqDirty mqBase = 1 := by
    simp only [calcAirPct, MQ_FLOOR_PCT]
    by_cases hdeg : mqDirty ≤ mqBase
    · rw [if_pos hdeg]
    · rw [if_neg hdeg]
      have hr : constrain mqBase mqBase mqDirty = mqBase := by
        unfold constrain; split_ifs <;> omega
      rw [hr, sub_self, zero_mul, Int.zero_tdiv]
      have h0 : constrain 0 0 100 = 0 := by unfold constrain; split_ifs <;> omega
      rw [h0, if_pos rfl]
  exact ⟨(hb raw).1, (hb raw).2, by have := (hb raw).1; omega, hfloor⟩

/-- Witness for C4 at a concrete input. -/
theorem calcAirPct_range_witness :
    1 ≤ calcAirPct 100 350 220 ∧ calcAirPct 100 350 220 ≤ 100 ∧
    calcAirPct 100 350 220 ≠ 0 ∧ calcAirPct 100 350 100 = 1 :=
  calcAirPct_range 100 350 220 (by norm_num) (by norm_num) (by norm_num)
    (by norm_num)

/-- Claim C5: for every baseline satisfying the `GasBaseline` invariant
`mqBase < mqDirty`, every reading at or below the floor maps to the fixed
minimum percentage 1, and every reading at or above the ceiling maps to
100. -/
theorem calcAirPct_saturation (mqBase mqDirty raw : ℤ) (hInv : mqBase < mqDirty) :
    (raw ≤ mqBase → calcAirPct mqBase mqDirty raw = 1) ∧
    (mqDirty ≤ raw → calcAirPct mqBase mqDirty raw = 100) := by
  constructor
  · intro h
    have hr : constrain raw mqBase mqDirty = mqBase := by
      unfold constrain; split_ifs <;> omega
    simp only [calcAirPct, MQ_FLOOR_PCT]
    rw [if_neg (by omega : ¬ mqDirty ≤ mqBase), hr, sub_self, zero_mul,
      Int.zero_tdiv]
    have h0 : constrain 0 0 100 = 0 := by unfold constrain; split_ifs <;> omega
    rw [h0, if_pos rfl]
  · intro h
    have hr : constrain raw mqBase mqDirty = mqDirty := by
      unfold constrain; split_ifs <;> omega
    simp only [calcAirPct, MQ_FLOOR_PCT]
    rw [if_neg (by omega : ¬ mqDirty ≤ mqBase), hr,
      Int.mul_tdiv_cancel_left 100 (by omega : mqDirty - mqBase ≠ 0)]
    have h100 : constrain 100 0 100 = 100 := by
      unfold constrain; split_ifs <;> omega
    rw [h100, if_neg (by omega : ¬ (100 : ℤ) = 0)]

/-- Witness for C5 at a concrete input. -/
theorem calcAirPct_saturation_witness :
    calcAirPct 100 350 40 = 1 ∧ calcAirPct 100 350 900 = 100 :=
  ⟨(calcAirPct_saturation 100 350 40 (by norm_num)).1 (by norm_num),
   (calcAirPct_saturation 100 350 900 (by norm_num)).2 (by norm_num)⟩

/-! ## Claims about the startup calibration -/

/-- Amended claim C7: for every sequence of 220 ADC readings in `[0, 1023]`
the calibration result satisfies `mqBase ≤ mqDirty ≤ 1023` (with
`mqBase ≤ 1023`), and the strict invariant `mqBase < mqDirty` holds
whenever `mqBase < 1023`; strictness fails only in the degenerate all-1023
case exhibited by the counterexample. -/
theorem calibrate_baseline_bounds (samples : List ℕ)
    (hlen : samples.length = 220) (hb : ∀ r ∈ samples, r ≤ 1023) :
    (calibrateMQBaseline samples).1 ≤ 1023 ∧
    (calibrateMQBaseline samples).1 ≤ (calibrateMQBaseline samples).2 ∧
    (calibrateMQBaseline samples).2 ≤ 1023 ∧
    ((calibrateMQBaseline samples).1 < 1023 →
      (calibrateMQBaseline samples).1 < (calibrateMQBaseline samples).2) := by
  have hsum : samples.sum ≤ 225060 := by
    have := List.sum_le_card_nsmul samples 1023 hb
    rw [hlen] at this
    simpa using this
  have hbase : samples.sum / 220 ≤ 1023 := by omega
  simp only [calibrateMQBaseline, constrainN, MQ_SPAN]
  split_ifs <;> omega

/-- Witness for C7 (amended) at a concrete input. -/
theorem calibrate_baseline_bounds_witness :
    (calibrateMQBaseline (List.replicate 220 100)).1 ≤ 1023 ∧
    (calibrateMQBaseline (List.replicate 220 100)).1 ≤
      (calibrateMQBaseline (List.replicate 220 100)).2 ∧
    (calibrateMQBaseline (List.replicate 220 100)).2 ≤ 1023 ∧
    ((calibrateMQBaseline (List.replicate 220 100)).1 < 1023 →
      (calibrateMQBaseline (List.replicate 220 100)).1 <
        (calibrateMQBaseline (List.replicate 220 100)).2) :=
  calibrate_baseline_bounds (List.replicate 220 100)
    (by rw [List.length_replicate])
    (by intro r hr; rw [List.eq_of_mem_replicate hr]; norm_num)

/-- Counterexample to C7 as stated: 220 readings of 1023 (each within
`[0, 1023]`) calibrate to `mqBase = mqDirty = 1023`, so the strict
invariant `floorRaw < ceilingRaw` fails. -/
theorem calibrate_degenerate_counterexample :
    calibrateMQBaseline (List.replicate 220 1023) = (1023, 1023) ∧
    ¬ ((calibrateMQBaseline (List.replicate 220 1023)).1 <
        (calibrateMQBaseline (List.replicate 220 1023)).2) := by
  have hsum : (List.replicate 220 1023).sum = 225060 := by
    rw [List.sum_replicate, smul_eq_mul]
  have h : calibrateMQBaseline (List.replicate 220 1023) = (1023, 1023) := by
    unfold calibrateMQBaseline constrainN MQ_SPAN
    rw [hsum]
    norm_num
  exact ⟨h, by rw [h]; omega⟩

/-- Claim C8: 220 constant readings of value `v ≤ 1023` calibrate to
`mqBase = v` and `mqDirty = min (v + MQ_SPAN) 1023`. -/
theorem calibrate_constant (v : ℕ) (hv : v ≤ 1023) :
    calibrateMQBaseline (List.replicate 220 v) = (v, min (v + MQ_SPAN) 1023) := by
  have hsum : (List.replicate 220 v).sum = 220 * v := by
    rw [List.sum_replicate, smul_eq_mul]
  have hbase : (List.replicate 220 v).sum / 220 = v := by
    rw [hsum]; omega
  simp only [calibrateMQBaseline, hbase, constrainN, MQ_SPAN]
  split_ifs <;> simp <;> omega

/-- Witness for C8 at a concrete input. -/
theorem calibrate_constant_witness :
    calibrateMQBaseline (List.replicate 220 300) = (300, 550) := by
  rw [calibrate_constant 300 (by norm_num)]
  have h : min (300 + MQ_SPAN) 1023 = 550 := by unfold MQ_SPAN; omega
  rw [h]

/-! ## Claim about transient bus read failures -/

/-- Claim C10: a wrong byte count (`Wire.available() ≠ 6` for the AHT10,
`< 6` for the MPU6050) or a set AHT10 busy bit leaves the previously held
values exactly unchanged — the state records carry no error flag or
failure counter, and the whole state is returned untouched. -/
theorem bus_failure_leaves_state (avail : ℕ) (data : List ℕ)
    (s : AHTState) (m : MPUState) :
    (avail ≠ 6 → readAHT10 avail data s = s) ∧
    ((data.getD 0 0).land 128 ≠ 0 → readAHT10 avail data s = s) ∧
    (avail < 6 → readMPU6050Raw avail data m = m) := by
  refine ⟨fun h => ?_, fun h => ?_, fun h => ?_⟩
  · unfold readAHT10; rw [if_pos h]
  · unfold readAHT10
    split_ifs <;> rfl
  · unfold readMPU6050Raw; rw [if_pos h]

/-- Witness for C10 at concrete inputs: a 5-byte response and a busy status
byte both leave the AHT10 values unchanged, and a 5-byte response leaves
the MPU6050 values unchanged. -/
theorem bus_failure_leaves_state_witness :
    readAHT10 5 [] ⟨25, 50⟩ = ⟨25, 50⟩ ∧
    readAHT10 6 [128, 0, 0, 0, 0, 0] ⟨25, 50⟩ = ⟨25, 50⟩ ∧
    readMPU6050Raw 5 [] ⟨1, 2, 3⟩ = ⟨1, 2, 3⟩ :=
  ⟨(bus_failure_leaves_state 5 [] ⟨25, 50⟩ ⟨1, 2, 3⟩).1 (by decide),
   (bus_failure_leaves_state 6 [128, 0, 0, 0, 0, 0] ⟨25, 50⟩ ⟨1, 2, 3⟩).2.1
     (by decide),
   (bus_failure_leaves_state 5 [] ⟨1, 1⟩ ⟨1, 2, 3⟩).2.2 (by decide)⟩

/-! ## Helper lemmas for the motion anomaly detector -/

/-- On the first sample (`accInitialized = false`) the detector seeds the
axis and magnitude accumulators and zeroes the dynamics and noise floor. -/
theorem updateMotion_seed (ax ay az : ℤ) (now : ℕ) (s : MotionState)
    (h : s.accInitialized = false) :
    updateMotion true ax ay az now s =
      { accInitialized := true, axE := (ax : ℝ), ayE := (ay : ℝ),
        azE := (az : ℝ), magE := magnitude ax ay az, dynE := 0, noiseE := 0,
        shakeUntilMs := s.shakeUntilMs } := by
  unfold updateMotion
  rw [if_neg (by simp), if_pos h]

/-- On subsequent samples (`accInitialized = true`) the detector performs
the EMA blends, the conditional noise-floor update and the threshold
comparison of the sketch. -/
theorem updateMotion_step (ax ay az : ℤ) (now : ℕ) (s : MotionState)
    (h : s.accInitialized = true) :
    updateMotion true ax ay az now s =
      { accInitialized := true,
        axE := (1 - ACC_EMA_ALPHA) * s.axE + ACC_EMA_ALPHA * (ax : ℝ),
        ayE := (1 - ACC_EMA_ALPHA) * s.ayE + ACC_EMA_ALPHA * (ay : ℝ),
        azE := (1 - ACC_EMA_ALPHA) * s.azE + ACC_EMA_ALPHA * (az : ℝ),
        magE := (1 - MAG_ALPHA) * s.magE + MAG_ALPHA * magnitude ax ay az,
        dynE := (1 - DYN_ALPHA) * s.dynE + DYN_ALPHA *
          |magnitude ax ay az -
            ((1 - MAG_ALPHA) * s.magE + MAG_ALPHA * magnitude ax ay az)|,
        noiseE :=
          if isShakeActive now s then s.noiseE
          else (1 - NOISE_ALPHA) * s.noiseE + NOISE_ALPHA *
            ((1 - DYN_ALPHA) * s.dynE + DYN_ALPHA *
              |magnitude ax ay az -
                ((1 - MAG_ALPHA) * s.magE + MAG_ALPHA * magnitude ax ay az)|),
        shakeUntilMs :=
          if max ((if isShakeActive now s then s.noiseE
              else (1 - NOISE_ALPHA) * s.noiseE + NOISE_ALPHA *
                ((1 - DYN_ALPHA) * s.dynE + DYN_ALPHA *
                  |magnitude ax ay az -
                    ((1 - MAG_ALPHA) * s.magE +
                      MAG_ALPHA * magnitude ax ay az)|)) * NOISE_MULT)
              ((MIN_QUAKE_COUNTS : ℕ) : ℝ) <
            (1 - DYN_ALPHA) * s.dynE + DYN_ALPHA *
              |magnitude ax ay az -
                ((1 - MAG_ALPHA) * s.magE + MAG_ALPHA * magnitude ax ay az)|
          then (now + SHAKE_HOLD_MS) % ULONG_MOD
          else s.shakeUntilMs } := by
  unfold updateMotion
  rw [if_neg (by simp), if_neg (by simp [h])]

/-- The updated dynamics accumulator, on an initialized state. -/
theorem dynE_step (ax ay az : ℤ) (now : ℕ) (s : MotionState)
    (h : s.accInitialized = true) :
    (updateMotion true ax ay az now s).dynE =
      (1 - DYN_ALPHA) * s.dynE + DYN_ALPHA *
        |magnitude ax ay az -
          ((1 - MAG_ALPHA) * s.magE + MAG_ALPHA * magnitude ax ay az)| := by
  rw [updateMotion_step ax ay az now s h]

/-- The updated magnitude baseline, on an initialized state. -/
theorem magE_step (ax ay az : ℤ) (now : ℕ) (s : MotionState)
    (h : s.accInitialized = true) :
    (updateMotion true ax ay az now s).magE =
      (1 - MAG_ALPHA) * s.magE + MAG_ALPHA * magnitude ax ay az := by
  rw [updateMotion_step ax ay az now s h]

/-- The updated noise floor, on an initialized state: frozen exactly when
the detector is ACTIVE, otherwise a slow EMA toward the (new) dynamics. -/
theorem noiseE_step (ax ay az : ℤ) (now : ℕ) (s : MotionState)
    (h : s.accInitialized = true) :
    (updateMotion true ax ay az now s).noiseE =
      if isShakeActive now s then s.noiseE
      else (1 - NOISE_ALPHA) * s.noiseE +
        NOISE_ALPHA * (updateMotion true ax ay az now s).dynE := by
  rw [updateMotion_step ax ay az now s h]

/-- The updated hold deadline, on an initialized state: extended to
`(now + SHAKE_HOLD_MS) mod 2^32` exactly when the new dynamics exceed the
threshold `max(noiseE * NOISE_MULT, MIN_QUAKE_COUNTS)`. -/
theorem shakeUntil_step (ax ay az : ℤ) (now : ℕ) (s : MotionState)
    (h : s.accInitialized = true) :
    (updateMotion true ax ay az now s).shakeUntilMs =
      if max ((updateMotion true ax ay az now s).noiseE * NOISE_MULT)
          ((MIN_QUAKE_COUNTS : ℕ) : ℝ) < (updateMotion true ax ay az now s).dynE
      then (now + SHAKE_HOLD_MS) % ULONG_MOD
      else s.shakeUntilMs := by
  rw [updateMotion_step ax ay az now s h]

/-- Evaluation lemma for `magnitude` at inputs whose squared norm is a
perfect square. -/
theorem magnitude_eq (ax ay az : ℤ) (r : ℝ) (hr : 0 ≤ r)
    (h : ((ax : ℝ)) ^ 2 + ((ay : ℝ)) ^ 2 + ((az : ℝ)) ^ 2 = r ^ 2) :
    magnitude ax ay az = r := by
  unfold magnitude
  rw [h, Real.sqrt_sq hr]

/-! ## Claim about the noise-floor freeze -/

/-- Claim C1: an update step executed while the detector is ACTIVE
(`now < shakeUntilMs`) leaves the noise floor exactly unchanged, and an
update step executed while not ACTIVE blends the (new) smoothed dynamics
into the noise floor with the slow EMA `NOISE_ALPHA = 0.01` — the single
`if`-equation below states both directions at once. -/
theorem noiseFloor_freeze (ax ay az : ℤ) (now : ℕ) (s : MotionState)
    (hInit : s.accInitialized = true) :
    (updateMotion true ax ay az now s).noiseE =
      if isShakeActive now s then s.noiseE
      else (1 - NOISE_ALPHA) * s.noiseE +
        NOISE_ALPHA * (updateMotion true ax ay az now s).dynE :=
  noiseE_step ax ay az now s hInit

/-- Witness for C1 at a concrete ACTIVE state (`now = 1 < shakeUntilMs = 5`,
noise floor 7): the update leaves the noise floor at exactly 7. -/
theorem noiseFloor_freeze_witness :
    isShakeActive 1 ⟨true, 0, 0, 0, 0, 0, 7, 5⟩ = true ∧
    (updateMotion true 0 0 0 1 ⟨true, 0, 0, 0, 0, 0, 7, 5⟩).noiseE = 7 := by
  refine ⟨rfl, ?_⟩
  rw [noiseFloor_freeze 0 0 0 1 ⟨true, 0, 0, 0, 0, 0, 7, 5⟩ rfl]
  rw [if_pos (show isShakeActive 1 ⟨true, 0, 0, 0, 0, 0, 7, 5⟩ = true from rfl)]

/-! ## Claim about constant sample streams -/

/-- `runMotion` unfolds one step at a time. -/
theorem runMotion_cons (ax ay az : ℤ) (t : ℕ) (ts : List ℕ) (s : MotionState) :
    runMotion ax ay az (t :: ts) s =
      runMotion ax ay az ts (updateMotion true ax ay az t s) := rfl

/-- One constant-sample step preserves the quiet invariant: zero dynamics,
zero hold deadline, and a magnitude baseline locked to the constant
sample's magnitude once initialized. -/
theorem updateMotion_const_quiet (ax ay az : ℤ) (t : ℕ) (s : MotionState)
    (h1 : s.dynE = 0) (h3 : s.shakeUntilMs = 0)
    (h4 : s.accInitialized = true → s.magE = magnitude ax ay az) :
    (updateMotion true ax ay az t s).dynE = 0 ∧
    (updateMotion true ax ay az t s).shakeUntilMs = 0 ∧
    ((updateMotion true ax ay az t s).accInitialized = true →
      (updateMotion true ax ay az t s).magE = magnitude ax ay az) := by
  cases hInit : s.accInitialized with
  | false =>
    rw [updateMotion_seed ax ay az t s hInit]
    exact ⟨rfl, h3, fun _ => rfl⟩
  | true =>
    have hm := h4 hInit
    have hdyn : (updateMotion true ax ay az t s).dynE = 0 := by
      rw [dynE_step ax ay az t s hInit, hm, h1]
      have hfix : (1 - MAG_ALPHA) * magnitude ax ay az +
          MAG_ALPHA * magnitude ax ay az = magnitude ax ay az := by ring
      rw [hfix, sub_self, abs_zero]
      ring
    have hmagE : (updateMotion true ax ay az t s).magE = magnitude ax ay az := by
      rw [magE_step ax ay az t s hInit, hm]
      ring
    have hcond : ¬ (max ((updateMotion true ax ay az t s).noiseE * NOISE_MULT)
        ((MIN_QUAKE_COUNTS : ℕ) : ℝ) < (updateMotion true ax ay az t s).dynE) := by
      rw [hdyn]
      intro hlt
      have h70 := le_max_right
        ((updateMotion true ax ay az t s).noiseE * NOISE_MULT)
        ((MIN_QUAKE_COUNTS : ℕ) : ℝ)
      have hneg := lt_of_le_of_lt h70 hlt
      norm_num [MIN_QUAKE_COUNTS] at hneg
    have hsh : (updateMotion true ax ay az t s).shakeUntilMs = 0 := by
      rw [shakeUntil_step ax ay az t s hInit, if_neg hcond, h3]
    exact ⟨hdyn, hsh, fun _ => hmagE⟩

/-- The quiet invariant is preserved by any run of constant-sample steps. -/
theorem runMotion_const_quiet (ax ay az : ℤ) (times : List ℕ) (s : MotionState)
    (h1 : s.dynE = 0) (h3 : s.shakeUntilMs = 0)
    (h4 : s.accInitialized = true → s.magE = magnitude ax ay az) :
    (runMotion ax ay az times s).dynE = 0 ∧
    (runMotion ax ay az times s).shakeUntilMs = 0 ∧
    ((runMotion ax ay az times s).accInitialized = true →
      (runMotion ax ay az times s).magE = magnitude ax ay az) := by
  induction times generalizing s with
  | nil => exact ⟨h1, h3, h4⟩
  | cons t ts ih =>
    rw [runMotion_cons]
    have hstep := updateMotion_const_quiet ax ay az t s h1 h3 h4
    exact ih (updateMotion true ax ay az t s) hstep.1 hstep.2.1 hstep.2.2

/-- Claim C2: feeding any constant raw sample `(ax, ay, az)` repeatedly
from the uninitialized initial state, for any number of update steps at any
`millis()` values, keeps `smoothedDynamics` (`dynE`) at 0 and the hold
deadline at 0, so the detector never becomes ACTIVE: `isShakeActive` is
false at every query time. -/
theorem constant_stream_never_active (ax ay az : ℤ) (times : List ℕ) (now : ℕ) :
    (runMotion ax ay az times initialMotionState).dynE = 0 ∧
    (runMotion ax ay az times initialMotionState).shakeUntilMs = 0 ∧
    isShakeActive now (runMotion ax ay az times initialMotionState) = false := by
  have h := runMotion_const_quiet ax ay az times initialMotionState rfl rfl
    (by intro hc; exact absurd hc (by simp [initialMotionState]))
  refine ⟨h.1, h.2.1, ?_⟩
  simp [isShakeActive, h.2.1]

/-! ## Claim about outlier samples -/

/-- Amended claim C3: from a steady, non-active baseline state (converged on
a constant stream: `dynE = 0`, `noiseE = 0`, `shakeUntilMs = 0`), a single
sample whose instantaneous magnitude differs from the magnitude baseline by
more than `2000/7 ≈ 285.7` counts makes the detector transition to ACTIVE
within that same update step — the new `smoothedDynamics` exceeds
`max(noiseFloor * 5, 70)` — setting `activeUntil = now + 300` ms, and
`isActive t` is then true exactly for `t < now + 300`.  (A `+2000` single-axis
deviation achieves this jump when the baseline magnitude is aligned with the
deviated axis, e.g. from a zero baseline, but not in general — see the
counterexample.) -/
theorem outlier_activates (ax ay az : ℤ) (now : ℕ) (s : MotionState)
    (hInit : s.accInitialized = true) (hDyn : s.dynE = 0)
    (hNoise : s.noiseE = 0) (hShake : s.shakeUntilMs = 0)
    (hJump : 2000 / 7 < |magnitude ax ay az - s.magE|)
    (hNow : now + SHAKE_HOLD_MS < ULONG_MOD) :
    max ((updateMotion true ax ay az now s).noiseE * NOISE_MULT)
        ((MIN_QUAKE_COUNTS : ℕ) : ℝ) < (updateMotion true ax ay az now s).dynE ∧
    (updateMotion true ax ay az now s).shakeUntilMs = now + SHAKE_HOLD_MS ∧
    ∀ t : ℕ, isShakeActive t (updateMotion true ax ay az now s) =
      decide (t < now + SHAKE_HOLD_MS) := by
  have hact : isShakeActive now s = false := by
    simp [isShakeActive, hShake]
  have hdyn : (updateMotion true ax ay az now s).dynE =
      DYN_ALPHA * ((1 - MAG_ALPHA) * |magnitude ax ay az - s.magE|) := by
    rw [dynE_step ax ay az now s hInit, hDyn]
    have hfac : magnitude ax ay az -
        ((1 - MAG_ALPHA) * s.magE + MAG_ALPHA * magnitude ax ay az) =
        (1 - MAG_ALPHA) * (magnitude ax ay az - s.magE) := by ring
    rw [hfac, abs_mul,
      abs_of_nonneg (by norm_num [MAG_ALPHA] : (0:ℝ) ≤ 1 - MAG_ALPHA)]
    ring
  have hJ70 : ((MIN_QUAKE_COUNTS : ℕ) : ℝ) <
      (updateMotion true ax ay az now s).dynE := by
    rw [hdyn]
    have hmul := mul_lt_mul_of_pos_left hJump
      (by norm_num [DYN_ALPHA, MAG_ALPHA] :
        (0:ℝ) < DYN_ALPHA * (1 - MAG_ALPHA))
    calc ((MIN_QUAKE_COUNTS : ℕ) : ℝ)
        = DYN_ALPHA * (1 - MAG_ALPHA) * (2000 / 7) := by
          norm_num [DYN_ALPHA, MAG_ALPHA, MIN_QUAKE_COUNTS]
      _ < DYN_ALPHA * (1 - MAG_ALPHA) * |magnitude ax ay az - s.magE| := hmul
      _ = DYN_ALPHA * ((1 - MAG_ALPHA) * |magnitude ax ay az - s.magE|) := by
          ring
  have hnoise : (updateMotion true ax ay az now s).noiseE =
      NOISE_ALPHA * (updateMotion true ax ay az now s).dynE := by
    rw [noiseE_step ax ay az now s hInit, hact, hNoise]
    norm_num
  have hdpos : (0:ℝ) < (updateMotion true ax ay az now s).dynE :=
    lt_trans (by norm_num [MIN_QUAKE_COUNTS]) hJ70
  have hmax : max ((updateMotion true ax ay az now s).noiseE * NOISE_MULT)
      ((MIN_QUAKE_COUNTS : ℕ) : ℝ) < (updateMotion true ax ay az now s).dynE := by
    apply max_lt
    · rw [hnoise]
      have h5 : NOISE_ALPHA * NOISE_MULT < 1 := by
        norm_num [NOISE_ALPHA, NOISE_MULT]
      calc NOISE_ALPHA * (updateMotion true ax ay az now s).dynE * NOISE_MULT
          = (NOISE_ALPHA * NOISE_MULT) *
            (updateMotion true ax ay az now s).dynE := by ring
        _ < 1 * (updateMotion true ax ay az now s).dynE :=
            mul_lt_mul_of_pos_right h5 hdpos
        _ = (updateMotion true ax ay az now s).dynE := one_mul _
    · exact hJ70
  have hshake : (updateMotion true ax ay az now s).shakeUntilMs =
      now + SHAKE_HOLD_MS := by
    rw [shakeUntil_step ax ay az now s hInit, if_pos hmax, Nat.mod_eq_of_lt hNow]
  exact ⟨hmax, hshake, fun t => by simp [isShakeActive, hshake]⟩

/-- Witness for C3 (amended) at a concrete input: a zero steady baseline and
a single `+2000` x-axis outlier at `now = 1000` give `activeUntil = 1300`,
with `isActive` true at 1299 and false at 1300. -/
theorem outlier_activates_witness :
    (updateMotion true 2000 0 0 1000 ⟨true, 0, 0, 0, 0, 0, 0, 0⟩).shakeUntilMs
      = 1000 + SHAKE_HOLD_MS ∧
    isShakeActive 1299 (updateMotion true 2000 0 0 1000
      ⟨true, 0, 0, 0, 0, 0, 0, 0⟩) = true ∧
    isShakeActive 1300 (updateMotion true 2000 0 0 1000
      ⟨true, 0, 0, 0, 0, 0, 0, 0⟩) = false := by
  have hm : magnitude 2000 0 0 = 2000 :=
    magnitude_eq 2000 0 0 2000 (by norm_num) (by norm_num)
  have h := outlier_activates 2000 0 0 1000 ⟨true, 0, 0, 0, 0, 0, 0, 0⟩
    rfl rfl rfl rfl (by rw [hm]; norm_num) (by norm_num [SHAKE_HOLD_MS, ULONG_MOD])
  refine ⟨h.2.1, ?_, ?_⟩
  · rw [h.2.2 1299]
    norm_num [SHAKE_HOLD_MS]
  · rw [h.2.2 1300]
    norm_num [SHAKE_HOLD_MS]

/-- Counterexample to C3 as stated: from the steady baseline produced by the
constant sample `(24960, 0, 0)` (magnitude baseline 24960), the single
sample `(24960, 2000, 0)` — a `+2000` deviation on the y axis — does NOT
transition the detector to ACTIVE in that update step (the magnitude only
moves from 24960 to 25040, so the new dynamics are `19.6 < 70`): the hold
deadline stays 0 and `isActive` is false 100 ms later. -/
theorem outlier_no_transition_counterexample :
    (updateMotion true 24960 2000 0 1000
        (updateMotion true 24960 0 0 500 initialMotionState)).shakeUntilMs = 0 ∧
    isShakeActive 1100 (updateMotion true 24960 2000 0 1000
        (updateMotion true 24960 0 0 500 initialMotionState)) = false := by
  have h0 : magnitude 24960 0 0 = 24960 :=
    magnitude_eq 24960 0 0 24960 (by norm_num) (by norm_num)
  have h1 : magnitude 24960 2000 0 = 25040 :=
    magnitude_eq 24960 2000 0 25040 (by norm_num) (by norm_num)
  have hseed : updateMotion true 24960 0 0 500 initialMotionState =
      ⟨true, 24960, 0, 0, 24960, 0, 0, 0⟩ := by
    rw [updateMotion_seed 24960 0 0 500 initialMotionState rfl, h0]
    simp [initialMotionState]
  have hInit1 : (updateMotion true 24960 0 0 500 initialMotionState).accInitialized
      = true := by rw [hseed]
  have hdyn : (updateMotion true 24960 2000 0 1000
      (updateMotion true 24960 0 0 500 initialMotionState)).dynE = 19.6 := by
    rw [dynE_step 24960 2000 0 1000 _ hInit1, hseed, h1]
    rw [show (25040:ℝ) - ((1 - MAG_ALPHA) * (24960:ℝ) + MAG_ALPHA * 25040) = 78.4
      by norm_num [MAG_ALPHA]]
    rw [abs_of_nonneg (by norm_num : (0:ℝ) ≤ 78.4)]
    norm_num [DYN_ALPHA]
  have hcond : ¬ (max ((updateMotion true 24960 2000 0 1000
      (updateMotion true 24960 0 0 500 initialMotionState)).noiseE * NOISE_MULT)
      ((MIN_QUAKE_COUNTS : ℕ) : ℝ) < (updateMotion true 24960 2000 0 1000
      (updateMotion true 24960 0 0 500 initialMotionState)).dynE) := by
    rw [hdyn]
    intro hlt
    have h70 := le_max_right ((updateMotion true 24960 2000 0 1000
      (updateMotion true 24960 0 0 500 initialMotionState)).noiseE * NOISE_MULT)
      ((MIN_QUAKE_COUNTS : ℕ) : ℝ)
    have hbad := lt_of_le_of_lt h70 hlt
    norm_num [MIN_QUAKE_COUNTS] at hbad
  have hsh : (updateMotion true 24960 2000 0 1000
      (updateMotion true 24960 0 0 500 initialMotionState)).shakeUntilMs = 0 := by
    rw [shakeUntil_step 24960 2000 0 1000 _ hInit1, if_neg hcond, hseed]
  exact ⟨hsh, by simp [isShakeActive, hsh]⟩

/-! ## Claim about elapsed-time checks and wraparound -/

/-- Amended claim C6: the display page rotation and report cadence checks
are computed via unsigned subtraction of millisecond timestamps and decide
their conditions correctly across a single wraparound of the 32-bit
counter; the shake active-window query, however, is the absolute comparison
`now < shakeUntilMs`, which agrees with the difference-based semantics only
while the active window does not cross the wraparound
(`trig + SHAKE_HOLD_MS < 2^32` and `trig ≤ t < 2^32`). -/
theorem timers_wraparound (lastP lastS e trig t : ℕ) (s : MotionState)
    (hP : lastP < ULONG_MOD) (hS : lastS < ULONG_MOD) (he : e < ULONG_MOD)
    (hTrig : trig + SHAKE_HOLD_MS < ULONG_MOD) (hLo : trig ≤ t) (hHi : t < ULONG_MOD)
    (hU : s.shakeUntilMs = (trig + SHAKE_HOLD_MS) % ULONG_MOD) :
    pageDue ((lastP + e) % ULONG_MOD) lastP = decide (OLED_PAGE_INTERVAL_MS ≤ e) ∧
    sendDue ((lastS + e) % ULONG_MOD) lastS =
      decide (THINGSPEAK_SEND_INTERVAL_MS ≤ e) ∧
    isShakeActive t s = shakeActiveDiffBased trig t := by
  have key : ∀ last : ℕ, last < ULONG_MOD → usub32 ((last + e) % ULONG_MOD) last = e := by
    intro last hlast
    unfold usub32
    unfold ULONG_MOD at *
    omega
  refine ⟨?_, ?_, ?_⟩
  · unfold pageDue
    rw [key lastP hP]
  · unfold sendDue
    rw [key lastS hS]
  · unfold isShakeActive shakeActiveDiffBased usub32
    rw [hU]
    simp only [decide_eq_decide]
    unfold ULONG_MOD SHAKE_HOLD_MS at *
    omega

/-- Witness for C6 (amended) at concrete inputs. -/
theorem timers_wraparound_witness :
    pageDue ((100 + 4000) % ULONG_MOD) 100 = decide (OLED_PAGE_INTERVAL_MS ≤ 4000) ∧
    sendDue ((200 + 4000) % ULONG_MOD) 200 =
      decide (THINGSPEAK_SEND_INTERVAL_MS ≤ 4000) ∧
    isShakeActive 1200 ⟨true, 0, 0, 0, 0, 0, 0, 1300⟩ =
      shakeActiveDiffBased 1000 1200 :=
  timers_wraparound 100 200 4000 1000 1200 ⟨true, 0, 0, 0, 0, 0, 0, 1300⟩
    (by decide) (by decide) (by decide) (by decide) (by decide) (by decide)
    (by decide)

/-- Counterexample to C6 as stated: the shake active-window query is an
absolute comparison, not a difference-based one, and it decides incorrectly
across a wraparound.  A qualifying outlier at `millis() = 2^32 - 100` sets
`shakeUntilMs = (2^32 - 100 + 300) mod 2^32 = 200`; 50 ms later (at
`millis() = 2^32 - 50`, elapsed `50 < 300`, so by the spec's
difference-based reading the window is still active) `isShakeActive`
already reports `false`. -/
theorem shake_wrap_counterexample :
    (updateMotion true 2000 0 0 (ULONG_MOD - 100)
        (updateMotion true 0 0 0 0 initialMotionState)).shakeUntilMs = 200 ∧
    shakeActiveDiffBased (ULONG_MOD - 100) (ULONG_MOD - 50) = true ∧
    isShakeActive (ULONG_MOD - 50) (updateMotion true 2000 0 0 (ULONG_MOD - 100)
        (updateMotion true 0 0 0 0 initialMotionState)) = false := by
  have h0 : magnitude 0 0 0 = 0 :=
    magnitude_eq 0 0 0 0 (by norm_num) (by norm_num)
  have h1 : magnitude 2000 0 0 = 2000 :=
    magnitude_eq 2000 0 0 2000 (by norm_num) (by norm_num)
  have hseed : updateMotion true 0 0 0 0 initialMotionState =
      ⟨true, 0, 0, 0, 0, 0, 0, 0⟩ := by
    rw [updateMotion_seed 0 0 0 0 initialMotionState rfl, h0]
    simp [initialMotionState]
  have hInit1 : (updateMotion true 0 0 0 0 initialMotionState).accInitialized
      = true := by rw [hseed]
  have hact : isShakeActive (ULONG_MOD - 100)
      (updateMotion true 0 0 0 0 initialMotionState) = false := by
    rw [hseed]
    rfl
  have hdyn : (updateMotion true 2000 0 0 (ULONG_MOD - 100)
      (updateMotion true 0 0 0 0 initialMotionState)).dynE = 490 := by
    rw [dynE_step 2000 0 0 (ULONG_MOD - 100) _ hInit1, hseed, h1]
    rw [show (2000:ℝ) - ((1 - MAG_ALPHA) * (0:ℝ) + MAG_ALPHA * 2000) = 1960
      by norm_num [MAG_ALPHA]]
    rw [abs_of_nonneg (by norm_num : (0:ℝ) ≤ 1960)]
    norm_num [DYN_ALPHA]
  have hnoise : (updateMotion true 2000 0 0 (ULONG_MOD - 100)
      (updateMotion true 0 0 0 0 initialMotionState)).noiseE = 4.9 := by
    rw [noiseE_step 2000 0 0 (ULONG_MOD - 100) _ hInit1, hact, hdyn, hseed]
    norm_num [NOISE_ALPHA]
  have hcond : max ((updateMotion true 2000 0 0 (ULONG_MOD - 100)
      (updateMotion true 0 0 0 0 initialMotionState)).noiseE * NOISE_MULT)
      ((MIN_QUAKE_COUNTS : ℕ) : ℝ) < (updateMotion true 2000 0 0 (ULONG_MOD - 100)
      (updateMotion true 0 0 0 0 initialMotionState)).dynE := by
    rw [hnoise, hdyn]
    apply max_lt
    · norm_num [NOISE_MULT]
    · norm_num [MIN_QUAKE_COUNTS]
  have hsh : (updateMotion true 2000 0 0 (ULONG_MOD - 100)
      (updateMotion true 0 0 0 0 initialMotionState)).shakeUntilMs = 200 := by
    rw [shakeUntil_step 2000 0 0 (ULONG_MOD - 100) _ hInit1, if_pos hcond]
    norm_num [ULONG_MOD, SHAKE_HOLD_MS]
  refine ⟨hsh, ?_, ?_⟩
  · unfold shakeActiveDiffBased usub32
    norm_num [ULONG_MOD, SHAKE_HOLD_MS]
  · rw [isShakeActive, hsh]
    norm_num [ULONG_MOD]

/-! ## Helper lemmas for substring occurrence -/

/-- A pattern is an initial run of itself followed by anything. -/
theorem beginsWith_self_append (p r : List Char) :
    beginsWith p (p ++ r) = true := by
  induction p with
  | nil => rfl
  | cons a q ih => simp [beginsWith, ih]

/-- A pattern occurs in any list that starts with it. -/
theorem substrOccurs_here (p r : List Char) : substrOccurs p (p ++ r) = true := by
  cases p with
  | nil =>
    cases r with
    | nil => rfl
    | cons c t => simp [substrOccurs, beginsWith]
  | cons a q =>
    have hb := beginsWith_self_append (a :: q) r
    rw [List.cons_append] at hb ⊢
    simp [substrOccurs, hb]

/-- Occurrence is preserved by prepending any list. -/
theorem substrOccurs_extend (y z p : List Char) (h : substrOccurs p z = true) :
    substrOccurs p (y ++ z) = true := by
  induction y with
  | nil => simpa using h
  | cons c y ih => simp [substrOccurs, ih]

/-- A pattern starting with `c0` skips over any leading run whose characters
all differ from `c0`. -/
theorem substrOccurs_skip (c0 : Char) (q d z : List Char)
    (hd : ∀ c ∈ d, (c0 == c) = false) :
    substrOccurs (c0 :: q) (d ++ z) = substrOccurs (c0 :: q) z := by
  induction d with
  | nil => simp
  | cons c d ih =>
    have hc : (c0 == c) = false := hd c (List.mem_cons_self c d)
    simp only [List.cons_append, substrOccurs, beginsWith, hc, Bool.false_and,
      Bool.false_or]
    exact ih (fun x hx => hd x (List.mem_cons_of_mem c hx))

/-- The ampersand is not a decimal digit, so it differs from every digit
character. -/
theorem amp_not_digit (c : Char) (h : c.isDigit = true) :
    (('&' : Char) == c) = false := by
  cases hbe : (('&' : Char) == c)
  · rfl
  · exfalso
    have hc : ('&' : Char) = c := eq_of_beq hbe
    rw [← hc] at h
    exact absurd h (by decide)

/-- `"&field1="` skips over a run of characters none of which is `'&'`. -/
theorem skip_noAmp_f1 (d z : List Char) (hd : ∀ c ∈ d, (('&':Char) == c) = false) :
    substrOccurs field1Tag (d ++ z) = substrOccurs field1Tag z :=
  substrOccurs_skip '&' ("field1=".toList) d z hd

/-- `"&field2="` skips over a run of characters none of which is `'&'`. -/
theorem skip_noAmp_f2 (d z : List Char) (hd : ∀ c ∈ d, (('&':Char) == c) = false) :
    substrOccurs field2Tag (d ++ z) = substrOccurs field2Tag z :=
  substrOccurs_skip '&' ("field2=".toList) d z hd

/-- `"&field1="` skips over a run of decimal digits. -/
theorem skip_digits_f1 (d z : List Char) (hd : ∀ c ∈ d, c.isDigit = true) :
    substrOccurs field1Tag (d ++ z) = substrOccurs field1Tag z :=
  skip_noAmp_f1 d z (fun c hc => amp_not_digit c (hd c hc))

/-- `"&field2="` skips over a run of decimal digits. -/
theorem skip_digits_f2 (d z : List Char) (hd : ∀ c ∈ d, c.isDigit = true) :
    substrOccurs field2Tag (d ++ z) = substrOccurs field2Tag z :=
  skip_noAmp_f2 d z (fun c hc => amp_not_digit c (hd c hc))

/-- `"&field1="` does not occur inside `"&field3="`. -/
theorem skip_f3_f1 (z : List Char) :
    substrOccurs field1Tag (field3Tag ++ z) = substrOccurs field1Tag z := rfl

/-- `"&field1="` does not occur inside `"&field4="`. -/
theorem skip_f4_f1 (z : List Char) :
    substrOccurs field1Tag (field4Tag ++ z) = substrOccurs field1Tag z := rfl

/-- `"&field1="` does not occur inside `"&field5="`. -/
theorem skip_f5_f1 (z : List Char) :
    substrOccurs field1Tag (field5Tag ++ z) = substrOccurs field1Tag z := rfl

/-- `"&field2="` does not occur inside `"&field3="`. -/
theorem skip_f3_f2 (z : List Char) :
    substrOccurs field2Tag (field3Tag ++ z) = substrOccurs field2Tag z := rfl

/-- `"&field2="` does not occur inside `"&field4="`. -/
theorem skip_f4_f2 (z : List Char) :
    substrOccurs field2Tag (field4Tag ++ z) = substrOccurs field2Tag z := rfl

/-- `"&field2="` does not occur inside `"&field5="`. -/
theorem skip_f5_f2 (z : List Char) :
    substrOccurs field2Tag (field5Tag ++ z) = substrOccurs field2Tag z := rfl

/-- `"&field1="` does not occur in a run of decimal digits. -/
theorem f1_not_in_digits (d : List Char) (hd : ∀ c ∈ d, c.isDigit = true) :
    substrOccurs field1Tag d = false := by
  have h := skip_digits_f1 d [] hd
  rw [List.append_nil] at h
  rw [h]
  rfl

/-- `"&field2="` does not occur in a run of decimal digits. -/
theorem f2_not_in_digits (d : List Char) (hd : ∀ c ∈ d, c.isDigit = true) :
    substrOccurs field2Tag d = false := by
  have h := skip_digits_f2 d [] hd
  rw [List.append_nil] at h
  rw [h]
  rfl

/-! ## Claim about the report payload -/

/-- Claim C9: the URL built by `sendToThingSpeak()` contains the temperature
field (`&field1=`) and humidity field (`&field2=`) iff the AHT10 sensor was
detected at startup (`hasAHT`), and always contains the air-quality
percentage field (`&field3=`), the shake flag encoded as 0/1 (`&field4=0`
or `&field4=1`), and the raw gas reading field (`&field5=`).  The formatted
numeric payloads for fields 3 and 5 (`String(airPct)`, `String(mqRaw)`,
decimal renderings of nonnegative integers) are assumed to consist of
decimal digits. -/
theorem report_fields (hasAHT : Bool) (tempS humS airS mqS : List Char)
    (shakeFlag : Bool)
    (hair : ∀ c ∈ airS, c.isDigit = true) (hmq : ∀ c ∈ mqS, c.isDigit = true) :
    substrOccurs field1Tag (sendToThingSpeakUrl hasAHT tempS humS airS
      (if shakeFlag then ['1'] else ['0']) mqS) = hasAHT ∧
    substrOccurs field2Tag (sendToThingSpeakUrl hasAHT tempS humS airS
      (if shakeFlag then ['1'] else ['0']) mqS) = hasAHT ∧
    substrOccurs field3Tag (sendToThingSpeakUrl hasAHT tempS humS airS
      (if shakeFlag then ['1'] else ['0']) mqS) = true ∧
    substrOccurs (field4Tag ++ (if shakeFlag then ['1'] else ['0']))
      (sendToThingSpeakUrl hasAHT tempS humS airS
        (if shakeFlag then ['1'] else ['0']) mqS) = true ∧
    substrOccurs field5Tag (sendToThingSpeakUrl hasAHT tempS humS airS
      (if shakeFlag then ['1'] else ['0']) mqS) = true := by
  have hshakeDigits : ∀ c ∈ (if shakeFlag then ['1'] else ['0']),
      c.isDigit = true := by
    cases shakeFlag <;> decide
  cases hasAHT with
  | false =>
    simp only [sendToThingSpeakUrl, Bool.false_eq_true, if_false,
      List.nil_append, List.append_assoc]
    refine ⟨?_, ?_, ?_, ?_, ?_⟩
    · rw [skip_noAmp_f1 THINGSPEAK_URL _ (by decide),
        skip_noAmp_f1 ("?api_key=".toList) _ (by decide),
        skip_noAmp_f1 THINGSPEAK_API_KEY _ (by decide),
        skip_f3_f1, skip_digits_f1 airS _ hair, skip_f4_f1,
        skip_digits_f1 (if shakeFlag then ['1'] else ['0']) _ hshakeDigits,
        skip_f5_f1]
      exact f1_not_in_digits mqS hmq
    · rw [skip_noAmp_f2 THINGSPEAK_URL _ (by decide),
        skip_noAmp_f2 ("?api_key=".toList) _ (by decide),
        skip_noAmp_f2 THINGSPEAK_API_KEY _ (by decide),
        skip_f3_f2, skip_digits_f2 airS _ hair, skip_f4_f2,
        skip_digits_f2 (if shakeFlag then ['1'] else ['0']) _ hshakeDigits,
        skip_f5_f2]
      exact f2_not_in_digits mqS hmq
    · apply substrOccurs_extend
      apply substrOccurs_extend
      apply substrOccurs_extend
      exact substrOccurs_here field3Tag _
    · apply substrOccurs_extend
      apply substrOccurs_extend
      apply substrOccurs_extend
      apply substrOccurs_extend
      apply substrOccurs_extend
      have h := substrOccurs_here
        (field4Tag ++ (if shakeFlag then ['1'] else ['0'])) (field5Tag ++ mqS)
      rw [List.append_assoc] at h
      exact h
    · apply substrOccurs_extend
      apply substrOccurs_extend
      apply substrOccurs_extend
      apply substrOccurs_extend
      apply substrOccurs_extend
      apply substrOccurs_extend
      apply substrOccurs_extend
      exact substrOccurs_here field5Tag _
  | true =>
    simp only [sendToThingSpeakUrl, if_true, List.nil_append, List.append_assoc]
    refine ⟨?_, ?_, ?_, ?_, ?_⟩
    · apply substrOccurs_extend
      apply substrOccurs_extend
      apply substrOccurs_extend
      exact substrOccurs_here field1Tag _
    · apply substrOccurs_extend
      apply substrOccurs_extend
      apply substrOccurs_extend
      apply substrOccurs_extend
      apply substrOccurs_extend
      exact substrOccurs_here field2Tag _
    · apply substrOccurs_extend
      apply substrOccurs_extend
      apply substrOccurs_extend
      apply substrOccurs_extend
      apply substrOccurs_extend
      apply substrOccurs_extend
      apply substrOccurs_extend
      exact substrOccurs_here field3Tag _
    · apply substrOccurs_extend
      apply substrOccurs_extend
      apply substrOccurs_extend
      apply substrOccurs_extend
      apply substrOccurs_extend
      apply substrOccurs_extend
      apply substrOccurs_extend
      apply substrOccurs_extend
      apply substrOccurs_extend
      have h := substrOccurs_here
        (field4Tag ++ (if shakeFlag then ['1'] else ['0'])) (field5Tag ++ mqS)
      rw [List.append_assoc] at h
      exact h
    · apply substrOccurs_extend
      apply substrOccurs_extend
      apply substrOccurs_extend
      apply substrOccurs_extend
      apply substrOccurs_extend
      apply substrOccurs_extend
      apply substrOccurs_extend
      apply substrOccurs_extend
      apply substrOccurs_extend
      apply substrOccurs_extend
      apply substrOccurs_extend
      exact substrOccurs_here field5Tag _

/-- Witness for C9 at concrete inputs (AHT10 absent, air percentage 42,
shake flag set, raw gas reading 7): fields 1 and 2 are absent, fields 3, 4
(with value 1) and 5 are present. -/
theorem report_fields_witness :
    substrOccurs field1Tag (sendToThingSpeakUrl false [] []
      (['4'] ++ ['2']) (if true then ['1'] else ['0']) ['7']) = false ∧
    substrOccurs field3Tag (sendToThingSpeakUrl false [] []
      (['4'] ++ ['2']) (if true then ['1'] else ['0']) ['7']) = true ∧
    substrOccurs (field4Tag ++ (if true then ['1'] else ['0']))
      (sendToThingSpeakUrl false [] []
        (['4'] ++ ['2']) (if true then ['1'] else ['0']) ['7']) = true := by
  have h := report_fields false [] [] (['4'] ++ ['2']) ['7'] true
    (by decide) (by decide)
  exact ⟨h.1, h.2.2.1, h.2.2.2.1⟩
